import Mathlib

/-!
Verification of the seat-map plugin core (src/pretix/plugins/seatmap).

The file shallowly embeds the data the plugin reads and writes — seats,
order positions, cart positions, vouchers, category mappings and the
seating-plan layout — and the functions of `views.py`, `api.py` and
`signals.py` that the claims are about.  Django ORM query sets are embedded
as Lean lists, timestamps as integers, and the per-request "now" as a field
of the database snapshot.  Each embedded definition names the source
function it translates.
-/

/-! ## Database snapshot -/

/-- Order lifecycle states (`Order.STATUS_*`).  Only `pending` and `paid`
matter to the seat-map code; the others exist so that inactive orders can be
represented. -/
inductive OStatus
  | pending
  | paid
  | expired
  | canceled
  deriving DecidableEq, Repr

/-- A persisted seat row (`Seat`): primary key, `seat_guid`, owning event,
the administrative `blocked` flag and the display name. -/
structure SeatRec where
  id : Nat
  guid : String
  event : Nat
  blocked : Bool
  name : String
  deriving DecidableEq, Repr

/-- An order position (`OrderPosition`): its seat link (by seat primary key);
the status of its order is inlined as `status`. -/
structure OrderPos where
  seat : Option Nat
  status : OStatus
  deriving DecidableEq, Repr

/-- A cart position (`CartPosition`): primary key `pid`, owning cart and
event, whether its item is an admission product, its seat link (by seat
primary key) and its expiry timestamp. -/
structure CartPos where
  pid : Nat
  cart_id : Nat
  event : Nat
  admission : Bool
  seat : Option Nat
  expires : Int
  deriving DecidableEq, Repr

/-- A voucher bound to a seat (`Voucher`, reached through `seat.vouchers`):
the seat primary key, optional `valid_until` timestamp, and usage counters. -/
structure Voucher where
  seat : Nat
  valid_until : Option Int
  redeemed : Nat
  max_usages : Nat
  deriving DecidableEq, Repr

/-- A snapshot of everything the plugin queries, together with the request
time `now`. -/
structure Db where
  now : Int
  seats : List SeatRec
  orderPositions : List OrderPos
  cartPositions : List CartPos
  vouchers : List Voucher
  deriving DecidableEq, Repr

/-! ## The taken predicate of the assignment write path -/

/-- Python truthiness of the optional `exclude_cart_position_id` argument
(`if exclude_cart_position_id:` in `is_seat_taken`): `None` and `0` are
falsy. -/
def truthyId : Option Nat → Bool
  | none => false
  | some n => n != 0

/-- The voucher filter of `is_seat_taken`:
`Q(valid_until isnull or valid_until >= now) and Q(redeemed < max_usages)`. -/
def voucherActive (now : Int) (v : Voucher) : Bool :=
  (match v.valid_until with
   | none => true
   | some t => decide (now ≤ t)) && decide (v.redeemed < v.max_usages)

/-- The cart query of `is_seat_taken`:
`CartPosition.objects.filter(seat=seat, expires__gte=now())`, optionally
excluding the primary key `exclude_cart_position_id`; the source guards the
exclusion with Python truthiness of the id. -/
def cartHoldQuery (db : Db) (seat : SeatRec) (exclude_cart_position_id : Option Nat) :
    List CartPos :=
  if truthyId exclude_cart_position_id then
    (db.cartPositions.filter fun p =>
      p.seat == some seat.id && decide (db.now ≤ p.expires)).filter
        fun p => some p.pid != exclude_cart_position_id
  else
    db.cartPositions.filter fun p => p.seat == some seat.id && decide (db.now ≤ p.expires)

/-- Translation of `CheckoutSeatSelectionView.is_seat_taken` /
`SeatSelectionView.is_seat_taken` (views.py lines 167-186 and 253-276; the
two methods are textually identical).  The three early returns of the
source are folded into a disjunction, which yields the same value; the cart
query of the middle return is `cartHoldQuery`.  The `blocked` flag of the
seat is never consulted. -/
def is_seat_taken (db : Db) (seat : SeatRec) (exclude_cart_position_id : Option Nat) : Bool :=
  (db.orderPositions.any fun p =>
    p.seat == some seat.id && (p.status == OStatus.pending || p.status == OStatus.paid)) ||
  !(cartHoldQuery db seat exclude_cart_position_id).isEmpty ||
  (db.vouchers.any fun v => v.seat == seat.id && voucherActive db.now v)

/-- The taken predicate exactly as claim C1 states it: blocked, OR an order
hold, OR a live voucher hold, OR a cart hold that does not belong to the
requester's own cart (`requesterCart`). -/
def claimedTaken (db : Db) (seat : SeatRec) (requesterCart : Nat) : Bool :=
  seat.blocked ||
  (db.orderPositions.any fun p =>
    p.seat == some seat.id && (p.status == OStatus.pending || p.status == OStatus.paid)) ||
  (db.vouchers.any fun v => v.seat == seat.id && voucherActive db.now v) ||
  (db.cartPositions.any fun p =>
    p.seat == some seat.id && decide (db.now ≤ p.expires) && p.cart_id != requesterCart)

/-- A blocked seat carrying no hold of any kind, in an otherwise empty
database. -/
def blockedSeat : SeatRec := ⟨10, "S1", 1, true, "S1"⟩

/-- Database containing only `blockedSeat`. -/
def blockedDb : Db := ⟨0, [blockedSeat], [], [], []⟩

/-- C1 counterexample: for the blocked seat `blockedSeat` with no order,
cart or voucher hold, the write path's `is_seat_taken` returns `false`
(whatever position is excluded and whatever the requester's cart is), while
the claim requires the predicate to return `true` because the seat's
`blocked` flag is set.  So `is_seat_taken` is not equivalent to the claimed
predicate. -/
theorem c1_counterexample :
    is_seat_taken blockedDb blockedSeat (some 1) = false ∧
    claimedTaken blockedDb blockedSeat 7 = true := by decide

/-- The order clause of `is_seat_taken`, as a proposition. -/
theorem orderClause_iff (db : Db) (seat : SeatRec) :
    (db.orderPositions.any fun p =>
      p.seat == some seat.id && (p.status == OStatus.pending || p.status == OStatus.paid)) = true
      ↔ ∃ p ∈ db.orderPositions, p.seat = some seat.id ∧
          (p.status = OStatus.pending ∨ p.status = OStatus.paid) := by
  simp [List.any_eq_true]

/-- The voucher filter of `is_seat_taken`, as a proposition. -/
theorem voucherActive_iff (now : Int) (v : Voucher) :
    voucherActive now v = true ↔
      (∀ t, v.valid_until = some t → now ≤ t) ∧ v.redeemed < v.max_usages := by
  unfold voucherActive
  cases h : v.valid_until <;> simp [h]

/-- The voucher clause of `is_seat_taken`, as a proposition. -/
theorem voucherClause_iff (db : Db) (seat : SeatRec) :
    (db.vouchers.any fun v => v.seat == seat.id && voucherActive db.now v) = true ↔
      ∃ v ∈ db.vouchers, v.seat = seat.id ∧
        (∀ t, v.valid_until = some t → db.now ≤ t) ∧ v.redeemed < v.max_usages := by
  simp [List.any_eq_true, voucherActive_iff, and_assoc]

/-- The cart clause of `is_seat_taken`, as a proposition: some unexpired
cart position other than the (truthy) excluded one holds the seat. -/
theorem cartClause_iff (db : Db) (seat : SeatRec) (ex : Option Nat) :
    (!(cartHoldQuery db seat ex).isEmpty) = true ↔
      ∃ p ∈ db.cartPositions, p.seat = some seat.id ∧ db.now ≤ p.expires ∧
        (∀ e, ex = some e → e ≠ 0 → p.pid ≠ e) := by
  unfold cartHoldQuery
  match hx : ex with
  | none =>
      simp [truthyId, List.isEmpty_eq_false_iff_exists_mem, List.mem_filter, and_assoc]
  | some e =>
      by_cases he : e = 0
      · subst he
        simp [truthyId, List.isEmpty_eq_false_iff_exists_mem, List.mem_filter, and_assoc]
      · simp only [truthyId, bne_iff_ne, ne_eq, he, not_false_eq_true, if_true,
          Bool.not_eq_true', List.isEmpty_eq_false_iff_exists_mem,
          List.mem_filter, Bool.and_eq_true, beq_iff_eq, decide_eq_true_eq]
        constructor
        · rintro ⟨p, ⟨⟨hp, hseat, hexp⟩, hne⟩⟩
          refine ⟨p, hp, hseat, hexp, ?_⟩
          intro e2 he2 _
          simp only [Option.some.injEq] at he2
          subst he2
          simpa using hne
        · rintro ⟨p, hp, hseat, hexp, hall⟩
          exact ⟨p, ⟨⟨hp, hseat, hexp⟩, by simpa using hall e rfl he⟩⟩

/-- C1 (amended): `is_seat_taken` returns `true` iff an order position of a
pending or paid order references the seat, or an unexpired cart position
other than the excluded one references the seat, or a live voucher is bound
to the seat.  The `blocked` flag is not consulted, and the cart-hold
exemption covers only the single excluded cart position (the one being
reassigned), not every hold of the requester's own cart. -/
theorem c1_amended (db : Db) (seat : SeatRec) (ex : Option Nat) :
    is_seat_taken db seat ex = true ↔
      (∃ p ∈ db.orderPositions, p.seat = some seat.id ∧
        (p.status = OStatus.pending ∨ p.status = OStatus.paid)) ∨
      (∃ p ∈ db.cartPositions, p.seat = some seat.id ∧ db.now ≤ p.expires ∧
        (∀ e, ex = some e → e ≠ 0 → p.pid ≠ e)) ∨
      (∃ v ∈ db.vouchers, v.seat = seat.id ∧
        (∀ t, v.valid_until = some t → db.now ≤ t) ∧ v.redeemed < v.max_usages) := by
  unfold is_seat_taken
  rw [Bool.or_eq_true, Bool.or_eq_true, orderClause_iff, cartClause_iff, voucherClause_iff,
    or_assoc]

/-! ## The assignment transaction (POST handlers)

`CheckoutSeatSelectionView.post` (views.py lines 188-248) and
`SeatSelectionView.post` (views.py lines 278-330) run the same algorithm;
they differ only in logging and in the redirect URL included in the success
payload, which the model omits.  The request body's `seat_assignments` JSON
object is embedded as an association list from position primary key to seat
guid; a malformed body is `none`.  JSON object keys are unique, which
theorems needing it take as a `Nodup` hypothesis. -/

/-- Outcome kinds of the POST handlers, one per `return JsonResponse` site. -/
inductive RespKind
  | success
  | errMalformed
  | errPositionNotInCart
  | errDuplicate
  | errSeatNotFound
  | errSeatTaken
  | errUnexpected
  deriving DecidableEq, Repr

/-- A JSON response: HTTP status code, outcome kind, and the user-facing
message (for the success payload the source sends no message; the model
stores the empty string). -/
structure Resp where
  httpStatus : Nat
  kind : RespKind
  message : String
  deriving DecidableEq, Repr

/-- The positions loaded by both POST handlers:
`CartPosition.objects.filter(cart_id=cart_id, event=event, item__admission=True)`. -/
def inCartScope (cart_id event : Nat) (p : CartPos) : Bool :=
  p.cart_id == cart_id && p.event == event && p.admission

/-- `positions` of the POST handlers, as a list. -/
def admissionPositions (db : Db) (cart_id event : Nat) : List CartPos :=
  db.cartPositions.filter (inCartScope cart_id event)

/-- Failure of the per-pair seat resolution loop. -/
inductive SeatErr
  | notFound
  | taken (name : String)
  deriving DecidableEq, Repr

/-- The per-pair validation loop of the POST handlers (step 3): for each
`(position id, seat guid)` pair in request order, look the seat up by
`(seat_guid, event)` — a missing seat aborts with `Seat.DoesNotExist` — and
abort if `is_seat_taken` holds for it, excluding the position being
assigned; otherwise collect the pair into `seats_to_assign`. -/
def resolveSeats (db : Db) (event : Nat) :
    List (Nat × String) → Except SeatErr (List (Nat × SeatRec))
  | [] => Except.ok []
  | (pid, guid) :: rest =>
    match db.seats.find? (fun s => s.guid == guid && s.event == event) with
    | none => Except.error SeatErr.notFound
    | some s =>
      if is_seat_taken db s (some pid) then Except.error (SeatErr.taken s.name)
      else
        match resolveSeats db event rest with
        | Except.error e => Except.error e
        | Except.ok l => Except.ok ((pid, s) :: l)

/-- The first write of the commit:
`CartPosition.objects.filter(pk__in=position_map.keys()).update(seat=None)` —
note it clears every loaded admission position of the cart, not only the
positions appearing in the request. -/
def clearSeats (db : Db) (pids : List Nat) : Db :=
  { db with cartPositions := db.cartPositions.map fun p =>
      if pids.contains p.pid then { p with seat := none } else p }

/-- One `pos.seat = seat; pos.save()` write. -/
def assignSeat (db : Db) (pid sid : Nat) : Db :=
  { db with cartPositions := db.cartPositions.map fun p =>
      if p.pid == pid then { p with seat := some sid } else p }

/-- The commit of the POST handlers: clear the seat links of all loaded
positions, then save each collected assignment in request order. -/
def commitAssignments (db : Db) (pids : List Nat) (sta : List (Nat × SeatRec)) : Db :=
  sta.foldl (fun d pr => assignSeat d pr.1 pr.2.id) (clearSeats db pids)

/-- Translation of the POST handlers (both views): parse the body, load the
cart's admission positions, validate (position ids in cart, no duplicate
seat guids, each seat exists and is not taken) and, only if every check
passed, commit.  Returns the response and the database after the request. -/
def post (db : Db) (cart_id event : Nat) (body : Option (List (Nat × String))) :
    Resp × Db :=
  match body with
  | none => (⟨400, RespKind.errMalformed, "Invalid request."⟩, db)
  | some seat_assignments =>
    let positions := admissionPositions db cart_id event
    let pids := positions.map (·.pid)
    if !(seat_assignments.all fun a => pids.contains a.1) then
      (⟨400, RespKind.errPositionNotInCart,
        "Your shopping cart has expired or has been changed in the meantime. Please go back to the cart, check your selection and try again."⟩, db)
    else if (seat_assignments.map (·.2)).length ≠ (seat_assignments.map (·.2)).dedup.length then
      (⟨400, RespKind.errDuplicate,
        "The same seat cannot be assigned to multiple tickets."⟩, db)
    else
      match resolveSeats db event seat_assignments with
      | Except.error SeatErr.notFound =>
          (⟨404, RespKind.errSeatNotFound, "Invalid seat selected."⟩, db)
      | Except.error (SeatErr.taken name) =>
          (⟨400, RespKind.errSeatTaken,
            "Seat " ++ name ++ " is no longer available."⟩, db)
      | Except.ok seats_to_assign =>
          (⟨200, RespKind.success, ""⟩, commitAssignments db pids seats_to_assign)

/-- Every non-success outcome of `post` leaves the database untouched: all
the validation returns happen before the first write. -/
theorem post_error_or_success (db : Db) (cart_id event : Nat)
    (body : Option (List (Nat × String))) :
    (post db cart_id event body).2 = db ∨
    (post db cart_id event body).1.kind = RespKind.success := by
  unfold post
  cases body with
  | none => exact Or.inl rfl
  | some sa =>
    dsimp only
    split
    · exact Or.inl rfl
    · split
      · exact Or.inl rfl
      · split
        · exact Or.inl rfl
        · exact Or.inl rfl
        · exact Or.inr rfl

/-- C6: every rejected assignment request (malformed body, position not in
cart, duplicate seat in batch, seat not found, or seat taken) modifies no
cart position's seat link — all validation errors are detected and returned
before any write occurs, so the database after the request equals the
database before it. -/
theorem c6_rejected_request_writes_nothing (db : Db) (cart_id event : Nat)
    (body : Option (List (Nat × String)))
    (h : (post db cart_id event body).1.kind ≠ RespKind.success) :
    (post db cart_id event body).2 = db :=
  (post_error_or_success db cart_id event body).elim id (fun hs => absurd hs h)

/-- C6 witness: a duplicate-seat batch against the one-seat database is
rejected and leaves the database unchanged. -/
theorem c6_witness :
    (post blockedDb 7 1 (some [(1, "S1"), (2, "S1")])).1.kind ≠ RespKind.success ∧
    (post blockedDb 7 1 (some [(1, "S1"), (2, "S1")])).2 = blockedDb :=
  ⟨by decide, c6_rejected_request_writes_nothing blockedDb 7 1
    (some [(1, "S1"), (2, "S1")]) (by decide)⟩

/-- C10: a valid-JSON body whose `seat_assignments` mapping is empty (or
absent — `data.get` returns the empty mapping then) succeeds, and every
admission cart position of the caller's cart ends with its seat link
cleared. -/
theorem c10_empty_batch_clears_cart (db : Db) (cart_id event : Nat) (p : CartPos)
    (hp : p ∈ (post db cart_id event (some [])).2.cartPositions)
    (hrel : inCartScope cart_id event p = true) :
    (post db cart_id event (some [])).1.kind = RespKind.success ∧ p.seat = none := by
  have hpost : post db cart_id event (some []) =
      (⟨200, RespKind.success, ""⟩,
        clearSeats db ((admissionPositions db cart_id event).map (·.pid))) := rfl
  rw [hpost] at hp ⊢
  refine ⟨rfl, ?_⟩
  simp only [clearSeats, List.mem_map] at hp
  obtain ⟨q, hq, hpq⟩ := hp
  by_cases hc : ((admissionPositions db cart_id event).map (·.pid)).contains q.pid
  · rw [if_pos hc] at hpq
    rw [← hpq]
  · rw [if_neg hc] at hpq
    subst hpq
    exfalso
    apply hc
    rw [List.elem_iff]
    simp only [List.mem_map]
    exact ⟨q, List.mem_filter.mpr ⟨hq, hrel⟩, rfl⟩

/-- A cart position holding seat 9, used by the C10 witness. -/
def seatedPos : CartPos := ⟨1, 7, 1, true, some 9, 100⟩

/-- Database containing only `seatedPos`. -/
def seatedDb : Db := ⟨0, [], [], [seatedPos], []⟩

/-- C10 witness: posting the empty batch against `seatedDb` succeeds and
clears the seat link of its one admission position. -/
theorem c10_witness :
    (⟨1, 7, 1, true, none, 100⟩ : CartPos) ∈ (post seatedDb 7 1 (some [])).2.cartPositions ∧
    inCartScope 7 1 ⟨1, 7, 1, true, none, 100⟩ = true ∧
    (post seatedDb 7 1 (some [])).1.kind = RespKind.success ∧
    (⟨1, 7, 1, true, none, 100⟩ : CartPos).seat = none :=
  ⟨by decide, by decide,
    c10_empty_batch_clears_cart seatedDb 7 1 ⟨1, 7, 1, true, none, 100⟩ (by decide) (by decide)⟩

/-- An unblocked free seat "S2" of event 1. -/
def freeSeatS2 : SeatRec := ⟨20, "S2", 1, false, "S2"⟩

/-- Cart 7 of event 1 holds two admission positions: position 1 already
linked to seat 9, position 2 unseated.  Seat "S2" is free. -/
def twoPosDb : Db := ⟨0, [freeSeatS2], [],
  [⟨1, 7, 1, true, some 9, 100⟩, ⟨2, 7, 1, true, none, 100⟩], []⟩

/-- C2 counterexample: the batch assigns only position 2, yet the commit
also clears the seat link of position 1, which does not appear in the
submitted batch — contradicting the claim that such positions are left
unchanged by the transaction. -/
theorem c2_counterexample :
    (post twoPosDb 7 1 (some [(2, "S2")])).1.kind = RespKind.success ∧
    (post twoPosDb 7 1 (some [(2, "S2")])).2.cartPositions =
      [⟨1, 7, 1, true, none, 100⟩, ⟨2, 7, 1, true, some 20, 100⟩] := by decide

/-- Inversion of a successful `post`: all validation checks passed, the
per-pair resolution produced `seats_to_assign`, and the final database is
the committed one. -/
theorem post_success_inversion (db : Db) (cart_id event : Nat) (sa : List (Nat × String))
    (hs : (post db cart_id event (some sa)).1.kind = RespKind.success) :
    ∃ sta, resolveSeats db event sa = Except.ok sta ∧
      (sa.all fun a =>
        ((admissionPositions db cart_id event).map (fun x => x.pid)).contains a.1) = true ∧
      (post db cart_id event (some sa)).2 =
        commitAssignments db ((admissionPositions db cart_id event).map (fun x => x.pid)) sta := by
  cases hall : (sa.all fun a =>
      ((admissionPositions db cart_id event).map (fun x => x.pid)).contains a.1) with
  | false =>
    exfalso
    simp only [post] at hs
    rw [hall] at hs
    simp at hs
  | true =>
    by_cases hdup : (sa.map (fun a => a.2)).length = (sa.map (fun a => a.2)).dedup.length
    · cases hres : resolveSeats db event sa with
      | error e =>
        exfalso
        simp only [post] at hs
        rw [hall, hres] at hs
        have hdup2 : sa.length = (sa.map (fun a => a.2)).dedup.length := by
          simpa using hdup
        cases e <;> simp [← hdup2] at hs
      | ok sta =>
        refine ⟨sta, rfl, rfl, ?_⟩
        have hdup2 : sa.length = (sa.map (fun a => a.2)).dedup.length := by
          simpa using hdup
        simp only [post]
        rw [hall, hres]
        simp [← hdup2]
    · exfalso
      simp only [post] at hs
      rw [hall] at hs
      have hdup2 : ¬ sa.length = (sa.map (fun a => a.2)).dedup.length := by
        simpa using hdup
      simp [hdup2] at hs

/-- The position ids collected by a successful resolution are exactly the
position ids of the request, in order. -/
theorem resolveSeats_keys (db : Db) (event : Nat) :
    ∀ (sa : List (Nat × String)) (sta : List (Nat × SeatRec)),
      resolveSeats db event sa = Except.ok sta →
      sta.map (fun pr => pr.1) = sa.map (fun a => a.1)
  | [], sta, h => by
    cases h
    rfl
  | (pid, guid) :: rest, sta, h => by
    rw [resolveSeats] at h
    split at h
    · cases h
    · split at h
      · cases h
      · split at h
        · cases h
        · next l hrest =>
          cases h
          simp only [List.map_cons]
          rw [resolveSeats_keys db event rest l hrest]

/-- Relates the entry a successful resolution holds for a position id to the
request entry for that id: either the id appears in neither, or the request
maps it to a guid whose seat lookup succeeded and whose record the
resolution carries. -/
theorem resolveSeats_find? (db : Db) (event : Nat) :
    ∀ (sa : List (Nat × String)) (sta : List (Nat × SeatRec)),
      resolveSeats db event sa = Except.ok sta → ∀ pid,
      (sa.find? (fun a => a.1 == pid) = none ∧ sta.find? (fun pr => pr.1 == pid) = none) ∨
      (∃ a s, sa.find? (fun a2 => a2.1 == pid) = some a ∧
        sta.find? (fun pr => pr.1 == pid) = some (a.1, s) ∧
        db.seats.find? (fun s2 => s2.guid == a.2 && s2.event == event) = some s) := by
  intro sa
  induction sa with
  | nil =>
    intro sta h pid
    cases h
    exact Or.inl ⟨rfl, rfl⟩
  | cons a rest ih =>
    obtain ⟨apid, aguid⟩ := a
    intro sta h pid
    rw [resolveSeats] at h
    split at h
    · cases h
    · next s hfind =>
      split at h
      · cases h
      · split at h
        · cases h
        · next l hrest =>
          cases h
          by_cases hpid : apid = pid
          · subst hpid
            refine Or.inr ⟨(apid, aguid), s, ?_, ?_, hfind⟩
            · rw [List.find?_cons_of_pos _ (by simp)]
            · rw [List.find?_cons_of_pos _ (by simp)]
          · rcases ih l hrest pid with ⟨h1, h2⟩ | ⟨a2, s2, h1, h2, h3⟩
            · refine Or.inl ⟨?_, ?_⟩
              · rw [List.find?_cons_of_neg _ (by simp [hpid]), h1]
              · rw [List.find?_cons_of_neg _ (by simp [hpid]), h2]
            · refine Or.inr ⟨a2, s2, ?_, ?_, h3⟩
              · rw [List.find?_cons_of_neg _ (by simp [hpid]), h1]
              · rw [List.find?_cons_of_neg _ (by simp [hpid]), h2]

/-- A position id outside a key list has no entry in the association. -/
theorem find?_none_of_not_mem_keys {sta : List (Nat × SeatRec)} {k : Nat}
    (h : k ∉ sta.map (fun pr => pr.1)) :
    sta.find? (fun pr => pr.1 == k) = none := by
  rw [List.find?_eq_none]
  intro pr hpr
  simp only [List.mem_map, not_exists, not_and] at h
  simp only [beq_iff_eq]
  exact h pr hpr

/-- Unfolding the save loop of the commit: with pairwise-distinct position
ids (JSON object keys), each cart position ends with the seat of its entry
in `seats_to_assign`, all other rows are untouched. -/
theorem foldl_assign_cartPositions :
    ∀ (sta : List (Nat × SeatRec)) (db1 : Db),
      (sta.map (fun pr => pr.1)).Nodup →
      (sta.foldl (fun d pr => assignSeat d pr.1 pr.2.id) db1).cartPositions =
        db1.cartPositions.map (fun p =>
          match sta.find? (fun pr => pr.1 == p.pid) with
          | some pr => { p with seat := some pr.2.id }
          | none => p)
  | [], db1, _ => by simp
  | a :: t, db1, hk => by
    rw [List.foldl_cons]
    rw [List.map_cons, List.nodup_cons] at hk
    rw [foldl_assign_cartPositions t _ hk.2]
    show (assignSeat db1 a.1 a.2.id).cartPositions.map _ = _
    unfold assignSeat
    dsimp only
    rw [List.map_map]
    congr 1
    funext p
    by_cases hpa : p.pid = a.1
    · simp only [Function.comp_apply, hpa, beq_self_eq_true, if_true]
      rw [find?_none_of_not_mem_keys hk.1, List.find?_cons_of_pos _ (by simp)]
    · simp only [Function.comp_apply, beq_iff_eq, hpa, if_false]
      rw [List.find?_cons_of_neg _ (by simp [Ne.symm hpa])]

/-- With globally unique position primary keys, a stored cart position's id
appears among the loaded admission positions' ids exactly when the position
itself is an admission position of the caller's cart. -/
theorem contains_pids_iff (db : Db) (cart_id event : Nat)
    (hnd : (db.cartPositions.map (fun p => p.pid)).Nodup)
    {p : CartPos} (hp : p ∈ db.cartPositions) :
    ((admissionPositions db cart_id event).map (fun x => x.pid)).contains p.pid = true ↔
      inCartScope cart_id event p = true := by
  rw [List.elem_iff]
  constructor
  · intro h
    simp only [List.mem_map] at h
    obtain ⟨q, hq, hqp⟩ := h
    have hq2 := List.mem_filter.mp hq
    have hqe : q = p := List.inj_on_of_nodup_map hnd hq2.1 hp hqp
    rw [← hqe]
    exact hq2.2
  · intro h
    simp only [List.mem_map]
    exact ⟨p, List.mem_filter.mpr ⟨hp, h⟩, rfl⟩

/-- The seat primary key the commit ends up writing for a given position id,
stated from the request: the seat looked up by the guid the batch maps the
id to, or `none` when the id is not in the batch. -/
def assignedSeat (db : Db) (event : Nat) (sa : List (Nat × String)) (pid : Nat) : Option Nat :=
  match sa.find? (fun a => a.1 == pid) with
  | none => none
  | some a => (db.seats.find? (fun s => s.guid == a.2 && s.event == event)).map (fun s => s.id)

/-- C2 (amended): on a fully validated request the commit rewrites the seat
link of **every** admission cart position of the caller's cart — positions
in the submitted batch receive their batch seat, and positions of the cart
that are absent from the batch are cleared to `none` (not left unchanged,
as the claim stated) — while cart positions outside the caller's cart's
admission set are untouched.  Hypotheses: stored position primary keys are
unique, and so are the JSON object keys of the batch. -/
theorem c2_amended (db : Db) (cart_id event : Nat) (sa : List (Nat × String))
    (hnd : (db.cartPositions.map (fun p => p.pid)).Nodup)
    (hk : (sa.map (fun a => a.1)).Nodup)
    (hs : (post db cart_id event (some sa)).1.kind = RespKind.success) :
    (post db cart_id event (some sa)).2.cartPositions =
      db.cartPositions.map (fun p =>
        if inCartScope cart_id event p then { p with seat := assignedSeat db event sa p.pid }
        else p) := by
  obtain ⟨sta, hres, hall, hpost⟩ := post_success_inversion db cart_id event sa hs
  rw [hpost]
  unfold commitAssignments
  have hkeys : (sta.map (fun pr => pr.1)).Nodup := by
    rw [resolveSeats_keys db event sa sta hres]
    exact hk
  rw [foldl_assign_cartPositions sta _ hkeys]
  unfold clearSeats
  dsimp only
  rw [List.map_map]
  apply List.map_congr_left
  intro p hp
  simp only [Function.comp_apply]
  rw [List.all_eq_true] at hall
  cases hscope : inCartScope cart_id event p with
  | true =>
    rw [if_pos ((contains_pids_iff db cart_id event hnd hp).mpr hscope)]
    dsimp only
    rcases resolveSeats_find? db event sa sta hres p.pid with ⟨h1, h2⟩ | ⟨a, s, h1, h2, h3⟩
    · simp only [h2, assignedSeat, h1]
      simp [hscope]
    · simp only [h2, assignedSeat, h1, h3, Option.map_some]
      simp [hscope]
  | false =>
    rw [if_neg (by
      intro hc
      rw [(contains_pids_iff db cart_id event hnd hp)] at hc
      rw [hscope] at hc
      cases hc)]
    rcases resolveSeats_find? db event sa sta hres p.pid with ⟨h1, h2⟩ | ⟨a, s, h1, h2, h3⟩
    · rw [h2]
      simp
    · exfalso
      have ha := List.mem_of_find?_eq_some h1
      have hpa := List.find?_some h1
      have := hall a ha
      rw [(show a.1 = p.pid by simpa using hpa)] at this
      rw [(contains_pids_iff db cart_id event hnd hp)] at this
      rw [hscope] at this
      cases this

/-- C2 witness: the amended characterization applied to the concrete
two-position cart and the singleton batch. -/
theorem c2_witness :
    ((twoPosDb.cartPositions.map (fun p => p.pid)).Nodup) ∧
    (([(2, "S2")].map (fun a : Nat × String => a.1)).Nodup) ∧
    (post twoPosDb 7 1 (some [(2, "S2")])).1.kind = RespKind.success ∧
    (post twoPosDb 7 1 (some [(2, "S2")])).2.cartPositions =
      twoPosDb.cartPositions.map (fun p =>
        if inCartScope 7 1 p then { p with seat := assignedSeat twoPosDb 1 [(2, "S2")] p.pid }
        else p) :=
  ⟨by decide, by decide, by decide,
    c2_amended twoPosDb 7 1 [(2, "S2")] (by decide) (by decide) (by decide)⟩

/-! ## Concurrent assignment requests (claim C9)

`post` runs under `transaction.atomic`, which provides rollback atomicity
for the writes but does not serialize the availability check
(`is_seat_taken`, a plain SELECT) against a concurrent request's commit: no
`select_for_update` row lock is taken and no database uniqueness constraint
guards "one active hold per seat".  Under the default read-committed
isolation the statements of two concurrent requests may therefore
interleave so that both availability checks run against the initial
database state before either commit executes.  `runRace` is `post`
restricted to two single-pair batches under exactly that schedule: each
request loads its positions and resolves (validates) its pair against the
initial state `db` — using the same `resolveSeats` as `post` — and then
both commits execute in order, each `commitAssignments` seeing the previous
writes. -/

/-- One concurrent single-pair assignment request. -/
structure RaceTxn where
  cart_id : Nat
  event : Nat
  pid : Nat
  guid : String
  deriving DecidableEq, Repr

/-- Two single-pair assignment requests under the racy schedule: check₁,
check₂, commit₁, commit₂ (checks against `db`, commits sequential). -/
def runRace (db : Db) (t1 t2 : RaceTxn) : Bool × Bool × Db :=
  let pids1 := (admissionPositions db t1.cart_id t1.event).map (fun x => x.pid)
  let pids2 := (admissionPositions db t2.cart_id t2.event).map (fun x => x.pid)
  match resolveSeats db t1.event [(t1.pid, t1.guid)],
        resolveSeats db t2.event [(t2.pid, t2.guid)] with
  | Except.ok sta1, Except.ok sta2 =>
      (true, true, commitAssignments (commitAssignments db pids1 sta1) pids2 sta2)
  | Except.ok sta1, Except.error _ =>
      (true, false, commitAssignments db pids1 sta1)
  | Except.error _, Except.ok sta2 =>
      (false, true, commitAssignments db pids2 sta2)
  | Except.error _, Except.error _ => (false, false, db)

/-- Free seat "S4" and two single-position carts (7 and 8) of event 1. -/
def raceDb : Db := ⟨0, [⟨40, "S4", 1, false, "S4"⟩], [],
  [⟨1, 7, 1, true, none, 100⟩, ⟨2, 8, 1, true, none, 100⟩], []⟩

/-- C9: under the racy schedule both requests pass the availability check
and both commit, leaving **two** positions linked to seat "S4" — the claim
that at most one of two concurrent transactions can commit a hold on the
same free seat does not hold for the code.  Run serially, the second
request is rejected with the seat-taken error, confirming that the serial
intent of the code matches the claim and the violation is purely the
missing check-and-commit atomicity. -/
theorem c9_race_both_commit :
    (runRace raceDb ⟨7, 1, 1, "S4"⟩ ⟨8, 1, 2, "S4"⟩).1 = true ∧
    (runRace raceDb ⟨7, 1, 1, "S4"⟩ ⟨8, 1, 2, "S4"⟩).2.1 = true ∧
    ((runRace raceDb ⟨7, 1, 1, "S4"⟩ ⟨8, 1, 2, "S4"⟩).2.2.cartPositions.filter
      (fun p => p.seat == some 40)).length = 2 ∧
    (post (post raceDb 7 1 (some [(1, "S4")])).2 8 1 (some [(2, "S4")])).1.kind =
      RespKind.errSeatTaken := by decide

/-! ## The exception boundary of the POST handlers (claims C7, C8) -/

/-- An exception escaping the body of a POST handler: either the JSON
decode error of `json.loads(request.body)`, or any other exception,
carrying the text `str(e)` would produce. -/
inductive PyExc
  | jsonDecodeError
  | other (msg : String)
  deriving DecidableEq, Repr

/-- Translation of the two trailing except-branches of both POST handlers
(views.py lines 243-248 and 326-330): a JSON decode error yields the fixed
400 message, and any other exception is logged and answered with HTTP 500
and `str(e)` — the exception's own text — as the user-facing message. -/
def handleException (db : Db) : PyExc → Resp × Db
  | PyExc.jsonDecodeError => (⟨400, RespKind.errMalformed, "Invalid request."⟩, db)
  | PyExc.other msg => (⟨500, RespKind.errUnexpected, msg⟩, db)

/-- C8 counterexample: the 500 response's message is the internal
exception's own text, not a fixed generic message — two different internal
errors produce two different user-facing messages, each equal to the
internal detail string. -/
theorem c8_counterexample :
    (handleException blockedDb (PyExc.other "KeyError at cart_namespace")).1.message =
      "KeyError at cart_namespace" ∧
    (handleException blockedDb (PyExc.other "division by zero")).1.message =
      "division by zero" ∧
    (handleException blockedDb (PyExc.other "KeyError at cart_namespace")).1.message ≠
      (handleException blockedDb (PyExc.other "division by zero")).1.message := by decide

/-- C8 (amended): an unexpected internal error is answered with HTTP 500
and status "error", but the user-facing message is `str(e)`, the
exception's own text, which may contain internal details; only the HTTP
status and error kind are generic.  No database write happens. -/
theorem c8_amended (db : Db) (msg : String) :
    (handleException db (PyExc.other msg)).1.httpStatus = 500 ∧
    (handleException db (PyExc.other msg)).1.kind = RespKind.errUnexpected ∧
    (handleException db (PyExc.other msg)).1.message = msg ∧
    (handleException db (PyExc.other msg)).2 = db :=
  ⟨rfl, rfl, rfl, rfl⟩

/-! ## Python dicts and the seating-plan layout (claims C4, C7)

Layout JSON objects are embedded structurally: a seat node carries optional
`seat_guid` and `category` string fields, a row an optional `category` and
an optional `seats` list (absence of the key is `none`), and so on.  Python
dicts built by iterated assignment are embedded as the write list in
iteration order, looked up through `pyDict` (later writes win). -/

/-- A Python dict built by iterated key assignment, as a lookup function:
later writes overwrite earlier ones. -/
def pyDict {κ ν : Type} [DecidableEq κ] (l : List (κ × ν)) : κ → Option ν :=
  l.foldl (fun f e => fun k => if k = e.1 then some e.2 else f k) (fun _ => none)

/-- Iterated assignment, unfolded: the value of a key is the value of its
last write. -/
theorem foldl_update_apply {κ ν : Type} [DecidableEq κ] (l : List (κ × ν))
    (f0 : κ → Option ν) (k : κ) :
    (l.foldl (fun f e => fun k2 => if k2 = e.1 then some e.2 else f k2) f0) k =
      match l.reverse.find? (fun e => k == e.1) with
      | some e => some e.2
      | none => f0 k := by
  induction l generalizing f0 with
  | nil => simp
  | cons a t ih =>
    rw [List.foldl_cons, ih, List.reverse_cons, List.find?_append]
    cases h : t.reverse.find? (fun e => k == e.1) with
    | some e => rw [Option.or_some]
    | none =>
      rw [Option.none_or]
      by_cases hk : k = a.1
      · simp [hk]
      · simp [hk]

/-- `pyDict` lookup is the last write of the key. -/
theorem pyDict_apply {κ ν : Type} [DecidableEq κ] (l : List (κ × ν)) (k : κ) :
    pyDict l k = (l.reverse.find? (fun e => k == e.1)).map (fun e => e.2) := by
  unfold pyDict
  rw [foldl_update_apply]
  cases h : l.reverse.find? (fun e => k == e.1) <;> simp

/-- A seat node of the layout JSON: optional `seat_guid` and `category`. -/
structure LSeat where
  seat_guid : Option String
  category : Option String
  deriving DecidableEq, Repr

/-- A row node: optional `category` and optional `seats` list. -/
structure LRow where
  category : Option String
  seats : Option (List LSeat)
  deriving DecidableEq, Repr

/-- A zone node: optional `rows` list. -/
structure LZone where
  rows : Option (List LRow)
  deriving DecidableEq, Repr

/-- A parsed layout object: optional top-level `zones` and `seats` keys
(the `categories` legend plays no role in the claims). -/
structure LayoutDict where
  zones : Option (List LZone)
  seats : Option (List LSeat)
  deriving DecidableEq, Repr

/-- The layout dict with neither `zones` nor `seats`. -/
def emptyLayout : LayoutDict := ⟨none, none⟩

/-- Python truthiness of an optional string field: missing (`None`) and the
empty string are falsy. -/
def truthyS : Option String → Bool
  | none => false
  | some s => !(s == "")

/-- The writes of `find_seat_categories` for one row of a zone (api.py
lines 69-80): skip seats with a falsy guid, write the seat's own truthy
`category`, else the row's truthy `category`, else nothing. -/
def fscRowWrites (row : LRow) : List (String × String) :=
  match row.seats with
  | none => []
  | some seats =>
      seats.filterMap fun st =>
        if truthyS st.seat_guid then
          if truthyS st.category then some (st.seat_guid.getD "", st.category.getD "")
          else if truthyS row.category then some (st.seat_guid.getD "", row.category.getD "")
          else none
        else none

/-- The writes of `find_seat_categories` for one zone (api.py lines 66-80). -/
def fscZoneWrites (zone : LZone) : List (String × String) :=
  match zone.rows with
  | none => []
  | some rows => rows.flatMap fscRowWrites

/-- The write sequence of `find_seat_categories` (api.py lines 64-88): the
zones branch when the object has a `zones` key, else the legacy flat
`seats` branch (own truthy guid and category required), else nothing. -/
def fscWrites (d : LayoutDict) : List (String × String) :=
  match d.zones with
  | some zones => zones.flatMap fscZoneWrites
  | none =>
      match d.seats with
      | some seats =>
          seats.filterMap fun st =>
            if truthyS st.seat_guid && truthyS st.category then
              some (st.seat_guid.getD "", st.category.getD "")
            else none
      | none => []

/-- Translation of `find_seat_categories` (api.py lines 64-88) producing
the `seat_guid_to_layout_category` dict. -/
def find_seat_categories (d : LayoutDict) : String → Option String :=
  pyDict (fscWrites d)

/-- The dict comprehension of the checkout read path
(`CheckoutSeatSelectionView.get_context_data`, views.py lines 90-95): it
iterates `zones[].rows[].seats[]` with defaults and maps `seat_guid` to the
seat's **own** `category` field, however falsy either is; note keys and
values are raw optional fields. -/
def checkoutWrites (d : LayoutDict) : List (Option String × Option String) :=
  (d.zones.getD []).flatMap fun zone =>
    (zone.rows.getD []).flatMap fun row =>
      (row.seats.getD []).map fun st => (st.seat_guid, st.category)

/-- The checkout path's `guid_to_category_name` dict. -/
def checkoutGuidToCategory (d : LayoutDict) : Option String → Option (Option String) :=
  pyDict (checkoutWrites d)

/-- The effective category of a seat node, as the claim states it: the
seat's own (truthy) `category`, else its row's (truthy) `category`, else
absent. -/
def effectiveCategory (rowCat : Option String) (st : LSeat) : Option String :=
  if truthyS st.category then st.category
  else if truthyS rowCat then rowCat
  else none

/-- Layout used by the C4 counterexample: one zone, one row with category
"Standard", one seat "S2" without its own category. -/
def rowFallbackLayout : LayoutDict :=
  ⟨some [⟨some [⟨some "Standard", some [⟨some "S2", none⟩]⟩]⟩], none⟩

/-- C4 counterexample: in `rowFallbackLayout` seat "S2"'s effective
category per the claim is the row's "Standard", and the API path resolves
exactly that — but the checkout read path's dict maps "S2" to `None` (the
seat's own absent category): the checkout path applies no row fallback, so
the claim is false for that read path. -/
theorem c4_counterexample :
    effectiveCategory (some "Standard") ⟨some "S2", none⟩ = some "Standard" ∧
    find_seat_categories rowFallbackLayout "S2" = some "Standard" ∧
    checkoutGuidToCategory rowFallbackLayout (some "S2") = some none := by decide

/-- One seat's write as the claim describes it: a truthy guid is mapped to
the seat's effective category (own, else row, else nothing). -/
def specSeatWrite (rowCat : Option String) (st : LSeat) : Option (String × String) :=
  if truthyS st.seat_guid then
    (effectiveCategory rowCat st).map (fun c => (st.seat_guid.getD "", c))
  else none

/-- The write sequence the claim describes for the API path: effective
categories over `zones[].rows[].seats[]`, or own categories over the legacy
flat `seats` list. -/
def specApiWrites (d : LayoutDict) : List (String × String) :=
  match d.zones with
  | some zones =>
      zones.flatMap fun z =>
        (z.rows.getD []).flatMap fun row =>
          (row.seats.getD []).filterMap (specSeatWrite row.category)
  | none => (d.seats.getD []).filterMap (specSeatWrite none)

/-- Per-seat agreement of the zone branch of `find_seat_categories` with
the claim's effective-category rule. -/
theorem fsc_seat_eq_spec (rowCat : Option String) (st : LSeat) :
    (if truthyS st.seat_guid then
        if truthyS st.category then some (st.seat_guid.getD "", st.category.getD "")
        else if truthyS rowCat then some (st.seat_guid.getD "", rowCat.getD "")
        else none
      else none) = specSeatWrite rowCat st := by
  unfold specSeatWrite effectiveCategory
  by_cases hg : truthyS st.seat_guid = true
  · rw [if_pos hg, if_pos hg]
    by_cases hc : truthyS st.category = true
    · rw [if_pos hc, if_pos hc]
      cases hcat : st.category with
      | none => rw [hcat] at hc; cases hc
      | some c => simp [hcat]
    · rw [if_neg hc, if_neg hc]
      by_cases hr : truthyS rowCat = true
      · rw [if_pos hr, if_pos hr]
        cases hrow : rowCat with
        | none => rw [hrow] at hr; cases hr
        | some c => simp [hrow]
      · rw [if_neg hr, if_neg hr]
        rfl
  · rw [if_neg hg, if_neg hg]

/-- Per-seat agreement of the flat branch of `find_seat_categories` with
the claim's own-category-only rule. -/
theorem fsc_flat_seat_eq_spec (st : LSeat) :
    (if truthyS st.seat_guid && truthyS st.category then
        some (st.seat_guid.getD "", st.category.getD "")
      else none) = specSeatWrite none st := by
  unfold specSeatWrite effectiveCategory
  by_cases hg : truthyS st.seat_guid = true
  · by_cases hc : truthyS st.category = true
    · rw [if_pos (by rw [hg, hc]; rfl), if_pos hg, if_pos hc]
      cases hcat : st.category with
      | none => rw [hcat] at hc; cases hc
      | some c => simp [hcat]
    · rw [if_neg (by rw [Bool.and_eq_true]; exact fun h2 => hc h2.2), if_pos hg, if_neg hc,
        if_neg (by simp [truthyS])]
      rfl
  · rw [if_neg (by rw [Bool.and_eq_true]; exact fun h2 => hg h2.1), if_neg hg]

/-- The API path's write sequence equals the claim's. -/
theorem fscWrites_eq_spec (d : LayoutDict) : fscWrites d = specApiWrites d := by
  unfold fscWrites specApiWrites
  cases hz : d.zones with
  | some zones =>
    dsimp only
    congr 1
    funext z
    unfold fscZoneWrites
    cases hr : z.rows with
    | none => rfl
    | some rows =>
      dsimp only [Option.getD_some]
      congr 1
      funext row
      unfold fscRowWrites
      cases hs : row.seats with
      | none => rfl
      | some seats =>
        dsimp only [Option.getD_some]
        congr 1
        funext st
        exact fsc_seat_eq_spec row.category st
  | none =>
    dsimp only
    cases hs : d.seats with
    | none => rfl
    | some seats =>
      dsimp only [Option.getD_some]
      congr 1
      funext st
      exact fsc_flat_seat_eq_spec st

/-- A resolved effective category is a non-empty string. -/
theorem effectiveCategory_truthy (rowCat : Option String) (st : LSeat) (c : String)
    (h : effectiveCategory rowCat st = some c) : c ≠ "" := by
  unfold effectiveCategory at h
  split at h
  · next hc =>
    rw [h] at hc
    simpa [truthyS] using hc
  · split at h
    · next hr =>
      rw [h] at hr
      simpa [truthyS] using hr
    · cases h

/-- Every write the claim's rule produces carries a non-empty category. -/
theorem specSeatWrite_value_truthy (rowCat : Option String) (st : LSeat) (e : String × String)
    (h : specSeatWrite rowCat st = some e) : e.2 ≠ "" := by
  unfold specSeatWrite at h
  split at h
  · cases hc : effectiveCategory rowCat st with
    | none => rw [hc] at h; cases h
    | some c =>
      rw [hc] at h
      have : e = (st.seat_guid.getD "", c) := by
        simpa using h.symm
      rw [this]
      exact effectiveCategory_truthy rowCat st c hc
  · cases h

/-- Every entry of the claim's write sequence came from some seat node. -/
theorem mem_specApiWrites (d : LayoutDict) (e : String × String) (he : e ∈ specApiWrites d) :
    ∃ rowCat st, specSeatWrite rowCat st = some e := by
  unfold specApiWrites at he
  cases hz : d.zones with
  | some zones =>
    rw [hz] at he
    simp only [List.mem_flatMap, List.mem_filterMap] at he
    obtain ⟨z, _, row, _, st, _, hw⟩ := he
    exact ⟨row.category, st, hw⟩
  | none =>
    rw [hz] at he
    simp only [List.mem_filterMap] at he
    obtain ⟨st, _, hw⟩ := he
    exact ⟨none, st, hw⟩

/-- `d` with every row category removed. -/
def eraseRowCategories (d : LayoutDict) : LayoutDict :=
  ⟨d.zones.map (fun zones => zones.map fun z =>
      ⟨z.rows.map (fun rows => rows.map fun row => ⟨none, row.seats⟩)⟩),
   d.seats⟩

/-- The checkout dict never reads row categories: erasing them all changes
nothing. -/
theorem checkoutWrites_erase (d : LayoutDict) :
    checkoutWrites (eraseRowCategories d) = checkoutWrites d := by
  unfold checkoutWrites eraseRowCategories
  cases hz : d.zones with
  | none => rfl
  | some zones =>
    simp only [Option.map_some', Option.getD_some, List.flatMap_map]
    congr 1
    funext z
    cases hr : z.rows with
    | none => rfl
    | some rows =>
      simp only [Option.map_some', Option.getD_some, List.flatMap_map]

/-- C4 (amended): the API path (`find_seat_categories`) implements the
claimed rule — zone form: a seat's own truthy category, else its row's,
else no entry; legacy flat form: own category only; every stored category
is non-empty, so entries exist only for seats that resolved one.  The
checkout read path's dict, however, never reads row categories (erasing
them all is invisible to it) and ignores a legacy flat `seats` list; it
records each listed seat's own raw `category` field only. -/
theorem c4_amended (d : LayoutDict) (g : String) :
    find_seat_categories d g = pyDict (specApiWrites d) g ∧
    (∀ v, find_seat_categories d g = some v → v ≠ "") ∧
    checkoutGuidToCategory (eraseRowCategories d) = checkoutGuidToCategory d ∧
    checkoutGuidToCategory ⟨d.zones, none⟩ = checkoutGuidToCategory d := by
  refine ⟨?_, ?_, ?_, ?_⟩
  · unfold find_seat_categories
    rw [fscWrites_eq_spec]
  · intro v hv
    unfold find_seat_categories at hv
    rw [pyDict_apply] at hv
    cases hfind : (fscWrites d).reverse.find? (fun e => g == e.1) with
    | none => rw [hfind] at hv; cases hv
    | some e =>
      rw [hfind] at hv
      have hv2 : e.2 = v := by simpa using hv
      have he : e ∈ fscWrites d := List.mem_reverse.mp (List.mem_of_find?_eq_some hfind)
      rw [fscWrites_eq_spec] at he
      obtain ⟨rowCat, st, hw⟩ := mem_specApiWrites d e he
      rw [← hv2]
      exact specSeatWrite_value_truthy rowCat st e hw
  · unfold checkoutGuidToCategory
    rw [checkoutWrites_erase]
  · rfl

/-- C4 witness: the amended statement applied to `rowFallbackLayout` and
guid "S2", with the non-emptiness hypothesis discharged at the concrete
value "Standard". -/
theorem c4_witness :
    find_seat_categories rowFallbackLayout "S2" = pyDict (specApiWrites rowFallbackLayout) "S2" ∧
    ("Standard" : String) ≠ "" :=
  ⟨(c4_amended rowFallbackLayout "S2").1,
   (c4_amended rowFallbackLayout "S2").2.1 "Standard" (by decide)⟩

/-- Abstract classification of a stored seating-plan layout payload by what
`json.loads` (Python library code, external to the plugin) would do with
it: an empty payload, an unparsable one, one parsing to a non-dict
non-string value, one parsing to a string whose second decode does not give
a dict, one parsing to a string that decodes to a dict (double-encoded),
and one parsing to a dict. -/
inductive RawLayout
  | blank
  | invalid
  | nonDict
  | strOther
  | strDict (d : LayoutDict)
  | dict (d : LayoutDict)
  deriving DecidableEq, Repr

/-- Translation of the checkout read path's layout parsing (views.py lines
65-76): an empty payload fails the `event.seating_plan.layout` guard and
the initial empty dict is kept; a decode error or a non-dict result (the
raised `TypeError`) is caught and degraded to the empty dict; a
double-encoded dict is decoded twice.  Total: this path always yields a
layout dict. -/
def parseLayoutCheckout : RawLayout → LayoutDict
  | RawLayout.blank => emptyLayout
  | RawLayout.invalid => emptyLayout
  | RawLayout.nonDict => emptyLayout
  | RawLayout.strOther => emptyLayout
  | RawLayout.strDict d => d
  | RawLayout.dict d => d

/-- The value a successful `json.loads` hands to the rest of the API view. -/
inductive PyVal
  | dict (d : LayoutDict)
  | str
  | other
  deriving DecidableEq, Repr

/-- Translation of the API read path's layout parsing (api.py line 61):
`json.loads` of the layout, with only the or-empty-object default guarding
the empty payload and **no** surrounding try/except — an unparsable
payload raises `json.JSONDecodeError`, which propagates out of the view
(HTTP 500).  A payload parsing to a string or other non-dict value is
passed on as-is (no double-decode, no dict check). -/
def parseLayoutApi : RawLayout → Except Unit PyVal
  | RawLayout.blank => Except.ok (PyVal.dict emptyLayout)
  | RawLayout.invalid => Except.error ()
  | RawLayout.nonDict => Except.ok PyVal.other
  | RawLayout.strOther => Except.ok PyVal.str
  | RawLayout.strDict _ => Except.ok PyVal.str
  | RawLayout.dict d => Except.ok (PyVal.dict d)

/-- C7 counterexample: an unparsable layout payload makes the API read path
propagate the parse failure instead of degrading to an empty layout — the
claim that **every** read path parsing the layout completes normally with
an empty layout is false for the API path. -/
theorem c7_counterexample :
    parseLayoutApi RawLayout.invalid = Except.error () ∧
    parseLayoutCheckout RawLayout.invalid = emptyLayout := by
  exact ⟨rfl, rfl⟩

/-- C7 (amended): the checkout read path degrades every empty, unparsable
or non-object payload to the empty layout and always completes; the API
read path treats only the empty payload as the empty layout and propagates
a failure on an unparsable one. -/
theorem c7_amended (r : RawLayout) :
    (r = RawLayout.blank ∨ r = RawLayout.invalid ∨ r = RawLayout.nonDict ∨
        r = RawLayout.strOther →
      parseLayoutCheckout r = emptyLayout) ∧
    parseLayoutApi RawLayout.blank = Except.ok (PyVal.dict emptyLayout) ∧
    parseLayoutApi RawLayout.invalid = Except.error () := by
  refine ⟨?_, rfl, rfl⟩
  rintro (h | h | h | h) <;> rw [h] <;> rfl

/-- C7 witness: the amended statement applied at the unparsable payload. -/
theorem c7_witness :
    parseLayoutCheckout RawLayout.invalid = emptyLayout ∧
    parseLayoutApi RawLayout.blank = Except.ok (PyVal.dict emptyLayout) :=
  ⟨(c7_amended RawLayout.invalid).1 (Or.inr (Or.inl rfl)),
   (c7_amended RawLayout.invalid).2.1⟩

/-! ## Seat-status projection of the API status query (claim C5) -/

/-- A seat record as the API status loop sees it: the guid, the annotated
hold flags and the stored `blocked` flag (present on the row, whether or
not the loop reads it). -/
structure ASeat where
  seat_guid : String
  blocked : Bool
  has_order : Bool
  has_cart : Bool
  has_voucher : Bool
  deriving DecidableEq, Repr

/-- Translation of the status decision of `SeatmapDataAPIView.get` (api.py
lines 110-116).  `is_available` abbreviates the product-availability
computation of lines 93-108 (`product and product.is_available()`, plus the
subevent override check); `cart_seats` is the set of seat guids held by the
caller's own cart.  The seat's `blocked` flag is never consulted. -/
def apiSeatStatus (is_available : Bool) (seat : ASeat) (cart_seats : List String) : String :=
  if !is_available then "unavailable"
  else if cart_seats.contains seat.seat_guid then "selected"
  else if seat.has_order || (seat.has_cart && !cart_seats.contains seat.seat_guid) ||
      seat.has_voucher then "unavailable"
  else "available"

/-- The decision order exactly as claim C5 states it: step 3 also turns the
`blocked` flag into UNAVAILABLE. -/
def claimedSeatStatus (is_available : Bool) (seat : ASeat) (cart_seats : List String) : String :=
  if !is_available then "unavailable"
  else if cart_seats.contains seat.seat_guid then "selected"
  else if seat.has_order || (seat.has_cart && !cart_seats.contains seat.seat_guid) ||
      seat.has_voucher || seat.blocked then "unavailable"
  else "available"

/-- Translation of the status decision of the checkout-step projection
(`SeatSelectionStep.get_context_data`, signals.py lines 119-122): only
"available" and "unavailable" exist, decided by the order / other-cart /
voucher disjunction alone — no product-availability step, no "selected"
status for the caller's own cart, and no `blocked` check. -/
def stepSeatStatus (seat : ASeat) (cart_seats : List String) : String :=
  if seat.has_order || (seat.has_cart && !cart_seats.contains seat.seat_guid) ||
      seat.has_voucher then "unavailable"
  else "available"

/-- C5 counterexample: a blocked seat with an available product and no
order, cart or voucher hold is projected as "available" by the API status
query, while the claim's decision order (step 3 includes the blocked flag)
requires "unavailable".  The checkout-step projection diverges further: the
same blocked seat is also "available" there, and a seat held by the
caller's own cart is reported "available", not the "selected" that the
claim's step 2 requires. -/
theorem c5_counterexample :
    apiSeatStatus true ⟨"S7", true, false, false, false⟩ [] = "available" ∧
    claimedSeatStatus true ⟨"S7", true, false, false, false⟩ [] = "unavailable" ∧
    stepSeatStatus ⟨"S7", true, false, false, false⟩ [] = "available" ∧
    stepSeatStatus ⟨"S8", false, false, true, false⟩ ["S8"] = "available" ∧
    claimedSeatStatus true ⟨"S8", false, false, true, false⟩ ["S8"] = "selected" := by decide

/-- C5 (amended): the API projection applies the claimed first-match-wins
decision order except that the `blocked` flag plays no part: (1) product
unavailable → "unavailable"; (2) held by the caller's own cart →
"selected"; (3) order hold, another cart's hold, or voucher hold →
"unavailable"; (4) otherwise "available" — and every seat receives exactly
one of the three statuses.  The checkout-step projection (signals.py)
produces only "unavailable" — exactly when an order hold, another cart's
hold, or a voucher hold exists — and "available" otherwise: it has no
product step, no "selected" status and no `blocked` check either. -/
theorem c5_amended (is_available : Bool) (seat : ASeat) (cart_seats : List String) :
    (apiSeatStatus is_available seat cart_seats = "unavailable" ↔
      (is_available = false ∨
        (cart_seats.contains seat.seat_guid = false ∧
          (seat.has_order = true ∨ seat.has_cart = true ∨ seat.has_voucher = true)))) ∧
    (apiSeatStatus is_available seat cart_seats = "selected" ↔
      (is_available = true ∧ cart_seats.contains seat.seat_guid = true)) ∧
    (apiSeatStatus is_available seat cart_seats = "available" ↔
      (is_available = true ∧ cart_seats.contains seat.seat_guid = false ∧
        seat.has_order = false ∧ seat.has_cart = false ∧ seat.has_voucher = false)) ∧
    (apiSeatStatus is_available seat cart_seats = "available" ∨
      apiSeatStatus is_available seat cart_seats = "selected" ∨
      apiSeatStatus is_available seat cart_seats = "unavailable") ∧
    (stepSeatStatus seat cart_seats = "unavailable" ↔
      (seat.has_order = true ∨
        (seat.has_cart = true ∧ cart_seats.contains seat.seat_guid = false) ∨
        seat.has_voucher = true)) ∧
    (stepSeatStatus seat cart_seats = "available" ∨
      stepSeatStatus seat cart_seats = "unavailable") := by
  obtain ⟨g, b, ho, hc, hv⟩ := seat
  unfold apiSeatStatus stepSeatStatus
  cases hm : cart_seats.contains g <;>
    cases is_available <;> cases ho <;> cases hc <;> cases hv <;>
      simp [hm]

/-! ## Category-to-product resolution (claim C3) -/

/-- A `SeatCategoryMapping` row: layout category name, mapped product, and
the optional subevent scope. -/
structure SCMapping where
  layout_category : String
  product_id : Nat
  subevent : Option Nat
  deriving DecidableEq, Repr

/-- `ORDER BY subevent_id` ascending with NULLs placed last — the postgres
ordering the source's comment relies on. -/
def mLeB : Option Nat → Option Nat → Bool
  | some x, some y => decide (x ≤ y)
  | some _, none => true
  | none, some _ => false
  | none, none => true

/-- The ordering relation on mapping rows induced by `mLeB` on
`subevent_id`. -/
def mRel (a b : SCMapping) : Prop := mLeB a.subevent b.subevent = true

instance : DecidableRel mRel := fun a b => instDecidableEqBool (mLeB a.subevent b.subevent) true

theorem mLeB_total (x y : Option Nat) : mLeB x y = true ∨ mLeB y x = true := by
  cases x <;> cases y <;> simp [mLeB] <;> omega

theorem mLeB_trans (x y z : Option Nat) (hxy : mLeB x y = true) (hyz : mLeB y z = true) :
    mLeB x z = true := by
  cases x <;> cases y <;> cases z <;> simp_all [mLeB] <;> omega

instance : IsTotal SCMapping mRel := ⟨fun a b => mLeB_total a.subevent b.subevent⟩

instance : IsTrans SCMapping mRel :=
  ⟨fun a b c => mLeB_trans a.subevent b.subevent c.subevent⟩

/-- The dict-building loop over the mapping query
(`for mapping in q_mappings: category_mappings[...] = ...`, api.py lines
55-58), as a lookup function; later rows overwrite earlier ones. -/
def buildCategoryMappings (l : List SCMapping) : String → Option Nat :=
  l.foldl (fun f m => fun c => if c = m.layout_category then some m.product_id else f c)
    (fun _ => none)

/-- The mapping dict's value for a category is the product of the last row
written for it. -/
theorem buildCategoryMappings_foldl_apply (l : List SCMapping)
    (f0 : String → Option Nat) (c : String) :
    (l.foldl (fun f m => fun c2 => if c2 = m.layout_category then some m.product_id else f c2)
        f0) c =
      match l.reverse.find? (fun m => c == m.layout_category) with
      | some m => some m.product_id
      | none => f0 c := by
  induction l generalizing f0 with
  | nil => simp
  | cons a t ih =>
    rw [List.foldl_cons, ih, List.reverse_cons, List.find?_append]
    cases h : t.reverse.find? (fun m => c == m.layout_category) with
    | some m => rw [Option.or_some]
    | none =>
      rw [Option.none_or]
      by_cases hk : c = a.layout_category
      · simp [hk]
      · simp [hk]

/-- `buildCategoryMappings`, characterized. -/
theorem buildCategoryMappings_apply (l : List SCMapping) (c : String) :
    buildCategoryMappings l c =
      (l.reverse.find? (fun m => c == m.layout_category)).map (fun m => m.product_id) := by
  unfold buildCategoryMappings
  rw [buildCategoryMappings_foldl_apply]
  cases h : l.reverse.find? (fun m => c == m.layout_category) <;> simp

/-- Translation of the mapping load of `SeatmapDataAPIView.get` (api.py
lines 44-58): with a subevent the query is filtered to
`Q(subevent=subevent) | Q(subevent__isnull=True)`, ordered by `subevent_id`
(ascending, NULLs last — embedded as an insertion sort under `mRel`) and
then reversed, so general rows are written into the dict before the
specific ones; without a subevent only general rows are loaded. -/
def resolveMappings (ms : List SCMapping) (subevent : Option Nat) : String → Option Nat :=
  match subevent with
  | some s =>
      buildCategoryMappings
        ((List.insertionSort mRel
          (ms.filter fun m => m.subevent == some s || m.subevent.isNone)).reverse)
  | none => buildCategoryMappings (ms.filter fun m => m.subevent.isNone)

/-- The resolution rule exactly as claim C3 states it: with a subevent,
prefer the mapping specific to it and fall back to the general one; without
a subevent, only general mappings apply. -/
def specResolveMapping (ms : List SCMapping) (subevent : Option Nat) (c : String) : Option Nat :=
  match subevent with
  | some s =>
      match ms.find? (fun m => m.layout_category == c && m.subevent == some s) with
      | some m => some m.product_id
      | none =>
          (ms.find? (fun m => m.layout_category == c && m.subevent.isNone)).map
            (fun m => m.product_id)
  | none =>
      (ms.find? (fun m => m.layout_category == c && m.subevent.isNone)).map
        (fun m => m.product_id)

/-- `find?` returns the unique element satisfying its predicate, when there
is one. -/
theorem find?_eq_some_of_unique {α : Type} {l : List α} {p : α → Bool} {a : α}
    (hu : ∀ x ∈ l, ∀ y ∈ l, p x = true → p y = true → x = y)
    (ha : a ∈ l) (hpa : p a = true) : l.find? p = some a := by
  cases h : l.find? p with
  | none =>
    rw [List.find?_eq_none] at h
    exact absurd hpa (h a ha)
  | some b =>
    rw [hu b (List.mem_of_find?_eq_some h) a ha (List.find?_some h) hpa]

/-- With a unique satisfying element, `find?` ignores list order. -/
theorem find?_reverse_of_unique {α : Type} {l : List α} {p : α → Bool}
    (hu : ∀ x ∈ l, ∀ y ∈ l, p x = true → p y = true → x = y) :
    l.reverse.find? p = l.find? p := by
  cases h : l.find? p with
  | none =>
    rw [List.find?_eq_none] at h ⊢
    intro x hx
    exact h x (List.mem_reverse.mp hx)
  | some a =>
    exact find?_eq_some_of_unique
      (fun x hx y hy => hu x (List.mem_reverse.mp hx) y (List.mem_reverse.mp hy))
      (List.mem_reverse.mpr (List.mem_of_find?_eq_some h)) (List.find?_some h)

/-- The API path's resolution: with unique `(layout_category, subevent)`
keys (the data model's uniqueness for mapping rows), the dict built by the
API view resolves each category to the product of its subevent-specific
mapping when one exists, falling back to the general mapping otherwise —
a general mapping never overrides a specific one — and without a subevent
only general mappings apply. -/
theorem c3_subevent_precedence (ms : List SCMapping) (subevent : Option Nat)
    (h : (ms.map fun m => (m.layout_category, m.subevent)).Nodup) (c : String) :
    resolveMappings ms subevent c = specResolveMapping ms subevent c := by
  have hkey : ∀ x ∈ ms, ∀ y ∈ ms,
      x.layout_category = y.layout_category → x.subevent = y.subevent → x = y := by
    intro x hx y hy h1 h2
    exact List.inj_on_of_nodup_map h hx hy (by rw [h1, h2])
  cases subevent with
  | none =>
    unfold resolveMappings specResolveMapping
    dsimp only
    rw [buildCategoryMappings_apply]
    have hu : ∀ x ∈ ms.filter (fun m => m.subevent.isNone),
        ∀ y ∈ ms.filter (fun m => m.subevent.isNone),
        (c == x.layout_category) = true → (c == y.layout_category) = true → x = y := by
      intro x hx y hy hpx hpy
      have hx2 := List.mem_filter.mp hx
      have hy2 := List.mem_filter.mp hy
      exact hkey x hx2.1 y hy2.1 ((beq_iff_eq.mp hpx).symm.trans (beq_iff_eq.mp hpy))
        ((Option.isNone_iff_eq_none.mp hx2.2).trans
          (Option.isNone_iff_eq_none.mp hy2.2).symm)
    rw [find?_reverse_of_unique hu, List.find?_filter]
    have hpred : (fun a : SCMapping =>
        decide (a.subevent.isNone = true ∧ (c == a.layout_category) = true)) =
        (fun m : SCMapping => m.layout_category == c && m.subevent.isNone) := by
      funext m
      obtain ⟨mc, mp, msub⟩ := m
      by_cases hc : c = mc
      · cases msub <;> simp [hc]
      · cases msub <;> simp [hc, Ne.symm hc]
    rw [hpred]
  | some s =>
    unfold resolveMappings specResolveMapping
    dsimp only
    rw [buildCategoryMappings_apply, List.reverse_reverse]
    set fl := ms.filter (fun m => m.subevent == some s || m.subevent.isNone) with hfl
    set sl := List.insertionSort mRel fl with hsl
    have hperm : sl.Perm fl := List.perm_insertionSort mRel fl
    have hsort : List.Pairwise mRel sl := List.sorted_insertionSort mRel fl
    cases hspec : ms.find? (fun m => m.layout_category == c && m.subevent == some s) with
    | some m =>
      have hm := List.mem_of_find?_eq_some hspec
      have hmp : m.layout_category = c ∧ m.subevent = some s := by
        simpa using List.find?_some hspec
      have hmsl : m ∈ sl := by
        rw [hperm.mem_iff]
        exact List.mem_filter.mpr ⟨hm, by rw [Bool.or_eq_true, beq_iff_eq]
                                          exact Or.inl hmp.2⟩
      have hfound : sl.find? (fun x => c == x.layout_category) = some m := by
        cases hfind : sl.find? (fun x => c == x.layout_category) with
        | none =>
          rw [List.find?_eq_none] at hfind
          exact absurd (by rw [beq_iff_eq]; exact hmp.1.symm) (hfind m hmsl)
        | some a =>
          have ha := List.mem_of_find?_eq_some hfind
          have hpa : c = a.layout_category := by simpa using List.find?_some hfind
          have hafl := hperm.mem_iff.mp ha
          have haq := (List.mem_filter.mp hafl).2
          rw [Bool.or_eq_true, beq_iff_eq, Option.isNone_iff_eq_none] at haq
          rcases haq with haq | haq
          · exact congrArg some (hkey a (List.mem_filter.mp hafl).1 m hm
              (hpa.symm.trans hmp.1.symm) (haq.trans hmp.2.symm))
          · exfalso
            rw [List.find?_eq_some] at hfind
            obtain ⟨hpa2, as, bs, hsplit, hprefix⟩ := hfind
            rw [hsplit] at hmsl
            have hpw : List.Pairwise mRel (as ++ a :: bs) := hsplit ▸ hsort
            have hma : m ≠ a := by
              intro he
              rw [he, haq] at hmp
              cases hmp.2
            have hmas : m ∉ as := by
              intro hin
              have h2 := hprefix m hin
              rw [Bool.not_eq_eq_eq_not, Bool.not_true, beq_eq_false_iff_ne] at h2
              exact h2 hmp.1.symm
            have hmbs : m ∈ bs := by
              rcases List.mem_append.mp hmsl with h1 | h2
              · exact absurd h1 hmas
              · rcases List.mem_cons.mp h2 with h3 | h4
                · exact absurd h3 hma
                · exact h4
            have hrel : mRel a m :=
              (List.pairwise_cons.mp (List.pairwise_append.mp hpw).2.1).1 m hmbs
            unfold mRel at hrel
            rw [haq, hmp.2] at hrel
            simp [mLeB] at hrel
      rw [hfound]
      rfl
    | none =>
      rw [List.find?_eq_none] at hspec
      have hnospec : ∀ x ∈ ms, x.layout_category = c → x.subevent ≠ some s := by
        intro x hx h1 h2
        exact hspec x hx (by rw [Bool.and_eq_true, beq_iff_eq, beq_iff_eq]
                             exact ⟨h1, h2⟩)
      have hmatch : ∀ x ∈ sl, (c == x.layout_category) = true → x.subevent = none := by
        intro x hx hp
        have hxfl := hperm.mem_iff.mp hx
        have hxq := (List.mem_filter.mp hxfl).2
        rw [Bool.or_eq_true, beq_iff_eq, Option.isNone_iff_eq_none] at hxq
        rcases hxq with hxq | hxq
        · exact absurd hxq (hnospec x (List.mem_filter.mp hxfl).1 (beq_iff_eq.mp hp).symm)
        · exact hxq
      have hu : ∀ x ∈ sl, ∀ y ∈ sl, (c == x.layout_category) = true →
          (c == y.layout_category) = true → x = y := by
        intro x hx y hy hpx hpy
        exact hkey x (List.mem_filter.mp (hperm.mem_iff.mp hx)).1
          y (List.mem_filter.mp (hperm.mem_iff.mp hy)).1
          ((beq_iff_eq.mp hpx).symm.trans (beq_iff_eq.mp hpy))
          ((hmatch x hx hpx).trans (hmatch y hy hpy).symm)
      cases hgen : ms.find? (fun m => m.layout_category == c && m.subevent.isNone) with
      | none =>
        rw [List.find?_eq_none] at hgen
        have hnone : sl.find? (fun x => c == x.layout_category) = none := by
          rw [List.find?_eq_none]
          intro x hx hp
          exact hgen x (List.mem_filter.mp (hperm.mem_iff.mp hx)).1
            (by rw [Bool.and_eq_true, beq_iff_eq, Option.isNone_iff_eq_none]
                exact ⟨(beq_iff_eq.mp hp).symm, hmatch x hx hp⟩)
        rw [hnone]
      | some gm =>
        have hgmm := List.mem_of_find?_eq_some hgen
        have hgmp : gm.layout_category = c ∧ gm.subevent = none := by
          simpa using List.find?_some hgen
        have hgmsl : gm ∈ sl := by
          rw [hperm.mem_iff]
          refine List.mem_filter.mpr ⟨hgmm, ?_⟩
          rw [Bool.or_eq_true]
          exact Or.inr (by rw [Option.isNone_iff_eq_none]; exact hgmp.2)
        rw [find?_eq_some_of_unique hu hgmsl (by rw [beq_iff_eq]; exact hgmp.1.symm)]

/-- Translation of the checkout view's mapping load
(`CheckoutSeatSelectionView.get_context_data`, views.py lines 84-87):
`product_mappings` is a dict comprehension over
`SeatCategoryMapping.objects.filter(event=event)` — **no** subevent filter
and **no** ordering, so every row of the event loads, in whatever order
the database returns (embedded as the given list order), and for a
category with several rows the last row returned wins. -/
def checkoutProductMappings (ms : List SCMapping) : String → Option Nat :=
  buildCategoryMappings ms

/-- C3 counterexample, on the claim's cited checkout path (views.py
84-87): a category mapped only for subevent 5 resolves to that product
even in the no-subevent context, where the claim says only general
mappings apply; and when the unordered query returns the general row after
the specific one, the general row overrides the specific one in the dict,
which the claim says must never happen (under context subevent 5 the claim
requires the specific product 3). -/
theorem c3_counterexample :
    checkoutProductMappings [⟨"Std", 3, some 5⟩] "Std" = some 3 ∧
    specResolveMapping [⟨"Std", 3, some 5⟩] none "Std" = none ∧
    checkoutProductMappings [⟨"Std", 3, some 5⟩, ⟨"Std", 2, none⟩] "Std" = some 2 ∧
    specResolveMapping [⟨"Std", 3, some 5⟩, ⟨"Std", 2, none⟩] (some 5) "Std" = some 3 := by
  refine ⟨rfl, rfl, rfl, rfl⟩

/-- C3 (amended): the API path (api.py 44-58) resolves as the claim
states — subevent-specific mappings preferred, general ones as fallback
only, and only general mappings without a subevent (given the data model's
unique mapping keys).  The checkout path (views.py 84-87) applies no
subevent logic at all: its dict maps a category to the product of the last
row the unordered, unfiltered query returned for it, so subevent-specific
rows take effect in every context and a general row overrides a specific
one whenever it comes later. -/
theorem c3_amended (ms : List SCMapping) (subevent : Option Nat)
    (h : (ms.map fun m => (m.layout_category, m.subevent)).Nodup) (c : String) :
    resolveMappings ms subevent c = specResolveMapping ms subevent c ∧
    checkoutProductMappings ms c =
      (ms.reverse.find? (fun m => c == m.layout_category)).map (fun m => m.product_id) :=
  ⟨c3_subevent_precedence ms subevent h c, buildCategoryMappings_apply ms c⟩

/-- Mapping table of the C3 witness: VIP general, Std general and Std
specific to subevent 5. -/
def witnessMappings : List SCMapping :=
  [⟨"VIP", 1, none⟩, ⟨"Std", 2, none⟩, ⟨"Std", 3, some 5⟩]

/-- C3 witness: the amended theorem applied to `witnessMappings` under
subevent 5 for category "Std", plus the concrete values on each path: the
API resolution yields the specific product 3 under subevent 5 and the
general product 2 without a subevent; the checkout dict yields the last
loaded row's product 3 regardless. -/
theorem c3_witness :
    ((witnessMappings.map fun m => (m.layout_category, m.subevent)).Nodup) ∧
    (resolveMappings witnessMappings (some 5) "Std" =
        specResolveMapping witnessMappings (some 5) "Std" ∧
      checkoutProductMappings witnessMappings "Std" =
        (witnessMappings.reverse.find? (fun m => "Std" == m.layout_category)).map
          (fun m => m.product_id)) ∧
    resolveMappings witnessMappings (some 5) "Std" = some 3 ∧
    resolveMappings witnessMappings none "Std" = some 2 ∧
    checkoutProductMappings witnessMappings "Std" = some 3 :=
  ⟨by decide, c3_amended witnessMappings (some 5) (by decide) "Std",
   by decide, by decide, by decide⟩
